import Mathlib

/-!
# Verification of the turkey-trip-planner engine

Shallow embedding of the core logic of `src/artifacts/default.tsx`
(component `TripAnalysisTable`): calendar annotation, fare lookup and
rounding, Option generation, price-ceiling filtering and sorting.

Modelling conventions:
* Calendar days are the ordinals `1..40` of the source's window
  (April 1 – May 10, 2025).  April 1, 2025 is a Tuesday, so the JS
  `Date.getDay()` of ordinal `k` is `(k + 1) % 7` (Sunday = 0).
* JS numbers are modelled as `ℚ`; a JS `NaN` produced by `Number(s)` on a
  non-numeric string is modelled by `Option ℚ` being `none`, and the JS
  rule `x <= NaN === false` is written out explicitly at the use site.
* JS string comparison (`<`, `>=`, lodash string ordering) is code-unit
  lexicographic; all strings involved are ASCII, so comparing Lean `Char`
  code points is exact.
-/

namespace TurkeyTrip

/-- JS `Date.getDay()` for ordinal day `k` of the window: April 1, 2025
(ordinal 1) is a Tuesday (`getDay() = 2`), so `getDay = (k + 1) % 7`. -/
def dayOfWeek (k : ℕ) : ℕ := (k + 1) % 7

/-- Two-digit zero padding, as in `String(x).padStart(2, '0')`. -/
def pad2 (n : ℕ) : String := if n < 10 then "0" ++ toString n else toString n

/-- The canonical `YYYY-MM-DD` string of ordinal day `k` (the source's
`toDateString` / `toISOString().split('T')[0]` on the noon-anchored date):
day `k ≤ 30` is April `k`, otherwise May `k - 30`. -/
def dateStr (k : ℕ) : String :=
  if k ≤ 30 then "2025-04-" ++ pad2 k else "2025-05-" ++ pad2 (k - 30)

/-- The human-readable label used in `option.dates`, built in the source as
`` `${startDate <= 30 ? 'April' : 'May'} ${startDate <= 30 ? startDate : startDate - 30}` ``. -/
def dateLabel (k : ℕ) : String :=
  (if k ≤ 30 then "April" else "May") ++ " " ++ toString (if k ≤ 30 then k else k - 30)

/-- JS `<` on strings: code-unit lexicographic comparison of char lists. -/
def charsLt : List Char → List Char → Bool
  | [], [] => false
  | [], _ :: _ => true
  | _ :: _, [] => false
  | a :: as, b :: bs =>
    if a.toNat < b.toNat then true
    else if b.toNat < a.toNat then false
    else charsLt as bs

/-- JS `a < b` on strings. -/
def jsStrLt (a b : String) : Bool := charsLt a.data b.data

/-- JS `a <= b` on strings (equivalently `!(b < a)`). -/
def jsStrLe (a b : String) : Bool := !(jsStrLt b a)

/-- The `holidays` object shape (`HOLIDAYS`, `option.holidays`). -/
structure Holidays where
  german : List String
  indian : List String
deriving DecidableEq

/-- The `hybridDays` object shape (`HYBRID_DAYS`, `option.hybridDays`). -/
structure HybridDays where
  hatim : List String
deriving DecidableEq

/-- Return shape of `getSpecialDays`. -/
structure SpecialDays where
  holidays : Holidays
  hybridDays : HybridDays
deriving DecidableEq

/-- The `HOLIDAYS` constant of the source. -/
def HOLIDAYS : Holidays :=
  { german := ["2025-04-18", "2025-04-21"],
    indian := ["2025-04-18", "2025-05-01"] }

/-- The `HYBRID_DAYS` constant of the source. -/
def HYBRID_DAYS : HybridDays := { hatim := ["2025-05-02"] }

/-- Source `getSpecialDays`: filters each holiday/hybrid list to the dates whose
ISO string lies in `[startStr, endStr]` (JS `holiday >= startStr && holiday <= endStr`). -/
def getSpecialDays (startDay endDay : ℕ) : SpecialDays :=
  let startStr := dateStr startDay
  let endStr := dateStr endDay
  { holidays :=
      { german := HOLIDAYS.german.filter (fun holiday =>
          jsStrLe startStr holiday && jsStrLe holiday endStr),
        indian := HOLIDAYS.indian.filter (fun holiday =>
          jsStrLe startStr holiday && jsStrLe holiday endStr) },
    hybridDays :=
      { hatim := HYBRID_DAYS.hatim.filter (fun day =>
          jsStrLe startStr day && jsStrLe day endStr) } }

/-- One iteration of the `getWorkingDays` while-loop: skip weekends; a
non-weekend day adds 0 if it is a holiday, 0.5 if it is a hybrid day,
else 1. -/
def workStep (holidays hybridDays : List String) (count : ℚ) (curDate : ℕ) : ℚ :=
  let dow := dayOfWeek curDate
  let dateString := dateStr curDate
  if dow ≠ 0 ∧ dow ≠ 6 then
    if holidays.contains dateString then count
    else if hybridDays.contains dateString then count + 1/2
    else count + 1
  else count

/-- Source `getWorkingDays`: fold of `workStep` over each day of
`[startDate, endDate]` (the source's while-loop over `Date` objects
becomes a fold over the ordinal range). -/
def getWorkingDays (startDate endDate : ℕ)
    (holidays : List String) (hybridDays : List String) : ℚ :=
  (List.range' startDate (endDate + 1 - startDate)).foldl (workStep holidays hybridDays) 0

/-- One iteration of the `getWeekendCount` while-loop. -/
def weekendStep (count : ℕ) (curDate : ℕ) : ℕ :=
  if dayOfWeek curDate = 0 ∨ dayOfWeek curDate = 6 then count + 1 else count

/-- Source `getWeekendCount`: number of Saturdays/Sundays in `[startDate, endDate]`. -/
def getWeekendCount (startDate endDate : ℕ) : ℕ :=
  (List.range' startDate (endDate + 1 - startDate)).foldl weekendStep 0

/-- The working-day credit one single day contributes in `getWorkingDays`
(the accumulator increment of `workStep`). -/
def workCredit (holidays hybridDays : List String) (curDate : ℕ) : ℚ :=
  if dayOfWeek curDate ≠ 0 ∧ dayOfWeek curDate ≠ 6 then
    if holidays.contains (dateStr curDate) then 0
    else if hybridDays.contains (dateStr curDate) then 1/2
    else 1
  else 0

/-- Indicator of a weekend day (the accumulator increment of
`weekendStep`). -/
def weekendInd (curDate : ℕ) : ℕ :=
  if dayOfWeek curDate = 0 ∨ dayOfWeek curDate = 6 then 1 else 0

/-- JS `Math.round` (round half toward positive infinity). -/
def jsRound (q : ℚ) : ℤ := ⌊q + 1/2⌋

/-- Source `roundToNearest500`: `Math.round(price / 500) * 500`. -/
def roundToNearest500 (price : ℚ) : ℚ := (jsRound (price / 500) * 500 : ℤ)

/-- One traveler-leg fare table (`PriceData`): one fare per day of April
and of May. -/
structure PriceData where
  april : List ℚ
  may : List ℚ
deriving DecidableEq

/-- The `Prices` record of the source. -/
structure Prices where
  hasanOutbound : PriceData
  hasanReturn : PriceData
  hatimOutbound : PriceData
  hatimReturn : PriceData
  hussainOutbound : PriceData
  hussainReturn : PriceData
deriving DecidableEq

/-- The static `prices` table of the source, verbatim. -/
def prices : Prices := {
  hasanOutbound := {
    april := [11021,4547,8535,13860,15062,13410,11038,9093,8789,12665,12766,13309,15019,11723,11672,8237,9839,9155,6120,8981,5056,4547,4740,4547,5878,4547,4547,6287,4547,8092],
    may := [9482,6231,4786,8308,6683,4786,4786,4786,4967,6954,6773,6592,6502,6502,11017,6954,5148,7134,6773,8760,10205,9482,12914,13365,11559,11108,10746,4606,11920,8399] },
  hasanReturn := {
    april := [6412,5960,8399,7134,6322,8940,6231,6322,5780,6322,6683,9121,11017,6954,8128,9211,9302,8940,16887,17429,18873,11649,11108,14358,10205,16345,16887,10114,8218,6954],
    may := [8218,8850,8940,8037,6322,5238,4154,4967,6051,6683,6231,6322,7044,5419,5960,6954,8218,6954,7405,6412,3432,6051,7044,7134,7134,8760,5780,3342,7315,8940] },
  hatimOutbound := {
    april := [18122,18116,18122,19218,18214,17040,16528,18083,18099,16326,16865,16800,17279,16326,18023,17023,16516,16610,16791,16139,16859,16945,18457,17494,15859,17462,16774,17506,16955,16787],
    may := [17609,18241,16887,17609,18422,18783,18603,18332,18241,18151,18332,17970,18422,18241,17700,17067,17700,19596,19596,18422,18332,17519,17609,16887,18332,17700,18783,19506,18061,19867] },
  hatimReturn := {
    april := [14990,12914,13184,14810,15171,15984,15261,12462,12643,12191,13365,14990,15171,14810,10114,10114,10024,10114,9843,10295,16706,11740,10114,10566,10024,10205,10114,15984,16706,10114],
    may := [10114,14358,16435,14358,15984,45964,16435,15894,10114,15803,10114,14810,13455,10295,14810,10114,15894,16706,13275,15623,13726,14629,20499,16526,10114,16345,19776,19506,17429,19506] },
  hussainOutbound := {
    april := [8128,5870,8128,9843,11017,11649,9843,8489,9843,11288,13726,21221,18061,16164,13094,13004,13997,11830,11378,13636,13997,8308,4877,4877,6141,6954,6954,6412,6141,6141],
    may := [6773,4877,4877,4877,7947,4877,5148,4877,4967,4967,4967,4967,4877,4877,4877,4877,4877,5148,5148,4877,4877,4877,4877,6773,4877,6592,5148,5148,4877,4877] },
  hussainReturn := {
    april := [3432,3432,3432,3432,3432,3432,3432,4967,3432,4967,7405,10746,11378,7586,9843,9302,9392,10656,14268,14990,14720,13275,14629,13094,18603,22756,15623,8669,8760,8218],
    may := [6141,8308,9302,11378,10385,4335,4967,4335,3432,4335,4335,4335,4335,3432,3432,3432,6502,4335,6954,6141,4335,3432,3432,3432,3432,3432,3432,3432,3432,3432] }
}

/-- The month-split index of the source:
`startIdx = startDate <= 30 ? startDate - 1 : startDate - 31`. -/
def monthIdx (day : ℕ) : ℕ := if day ≤ 30 then day - 1 else day - 31

/-- The month array selected by `startDate <= 30 ? 'april' : 'may'`. -/
def monthArr (pd : PriceData) (day : ℕ) : List ℚ := if day ≤ 30 then pd.april else pd.may

/-- Lookup `prices.x[monthKey][idx]`; an out-of-bounds access (JS `undefined`)
is modelled by the default `0` — the safety claim shows the generator
never reaches it. -/
def fareAt (pd : PriceData) (day : ℕ) : ℚ := (monthArr pd day).getD (monthIdx day) 0

/-- One leg's price as computed in the generation loop:
`roundPrices ? roundToNearest500(fare) : fare`. -/
def legPrice (roundPrices : Bool) (pd : PriceData) (day : ℕ) : ℚ :=
  if roundPrices then roundToNearest500 (fareAt pd day) else fareAt pd day

/-- Field `option.dates`; the source's `end` field is a Lean keyword and is
rendered here as `stop`. -/
structure Dates where
  start : String
  stop : String
deriving DecidableEq

/-- Field `option.costs`. -/
structure Costs where
  hasan : ℚ
  hatim : ℚ
  hussain : ℚ
  total : ℚ
deriving DecidableEq

/-- Field `option.leaves` (fractional: hybrid days count 0.5). -/
structure Leaves where
  german : ℚ
  indian : ℚ
deriving DecidableEq

/-- The `Option` record of the source (named `Opt` here to avoid clashing
with Lean's `Option`). -/
structure Opt where
  dates : Dates
  holidays : Holidays
  hybridDays : HybridDays
  weekends : ℕ
  costs : Costs
  leaves : Leaves
  duration : ℕ
deriving DecidableEq

/-- The display-currency selector. -/
inductive Currency
  | INR
  | EUR
deriving DecidableEq

/-- Sort direction. -/
inductive SortDir
  | asc
  | desc
deriving DecidableEq

/-- The immutable input snapshot of the component's state consumed by the
generate → filter → sort pipeline. -/
structure Config where
  sortField : String
  sortDirection : SortDir
  selectedDurations : List ℕ
  maxPriceHasan : String
  maxPriceHatim : String
  maxPriceHussain : String
  roundPrices : Bool
  exchangeRate : Option ℚ
  selectedCurrency : Currency
deriving DecidableEq

/-- JS `Number(x).toFixed(2)` re-read as a number, for the positive values
arising here: round half up at the second decimal. -/
def toFixed2 (q : ℚ) : ℚ := (jsRound (q * 100) : ℚ) / 100

/-- Source `convertPrice`: identity for INR or when no exchange rate is loaded
(`!exchangeRate` is also true for a zero rate, JS falsiness), otherwise
`Number((priceInINR * exchangeRate).toFixed(2))`. -/
def convertPrice (cfg : Config) (priceInINR : ℚ) : ℚ :=
  match cfg.selectedCurrency, cfg.exchangeRate with
  | Currency.INR, _ => priceInINR
  | _, none => priceInINR
  | _, some rate => if rate = 0 then priceInINR else toFixed2 (priceInINR * rate)

/-- The body of the generation loop for one `(startDate, duration)` pair:
per-leg (optionally rounded) fares, calendar annotations, and the
assembled `Option`. -/
def mkOption (cfg : Config) (startDate duration : ℕ) : Opt :=
  let endDate := startDate + duration - 1
  let hasanOutbound := legPrice cfg.roundPrices prices.hasanOutbound startDate
  let hasanReturn := legPrice cfg.roundPrices prices.hasanReturn endDate
  let hatimOutbound := legPrice cfg.roundPrices prices.hatimOutbound startDate
  let hatimReturn := legPrice cfg.roundPrices prices.hatimReturn endDate
  let hussainOutbound := legPrice cfg.roundPrices prices.hussainOutbound startDate
  let hussainReturn := legPrice cfg.roundPrices prices.hussainReturn endDate
  let specialDays := getSpecialDays startDate endDate
  let germanLeaves := getWorkingDays startDate endDate specialDays.holidays.german []
  let indianLeaves :=
    getWorkingDays startDate endDate specialDays.holidays.indian specialDays.hybridDays.hatim
  let weekendCount := getWeekendCount startDate endDate
  { dates := { start := dateLabel startDate, stop := dateLabel endDate },
    holidays := specialDays.holidays,
    hybridDays := specialDays.hybridDays,
    weekends := weekendCount,
    duration := duration,
    costs :=
      { hasan := hasanOutbound + hasanReturn,
        hatim := hatimOutbound + hatimReturn,
        hussain := hussainOutbound + hussainReturn,
        total := hasanOutbound + hasanReturn + hatimOutbound + hatimReturn
                   + hussainOutbound + hussainReturn },
    leaves := { german := germanLeaves, indian := indianLeaves } }

/-- The source's inner ternary
`selectedDurations.length > 0 ? selectedDurations : [6, 7, 8, 9, 10]`. -/
def durationPool (cfg : Config) : List ℕ :=
  if cfg.selectedDurations.length > 0 then cfg.selectedDurations else [6, 7, 8, 9, 10]

/-- Source `generateDateAnalysis`: early-returns `[]` when no durations are
selected; otherwise enumerates `startDate` over `1..34` and each selected
duration, skipping pairs whose `endDate = startDate + duration - 1`
exceeds 40 (the `continue`). -/
def generateDateAnalysis (cfg : Config) : List Opt :=
  if cfg.selectedDurations.length = 0 then []
  else
    (List.range' 1 34).flatMap (fun startDate =>
      (durationPool cfg).filterMap (fun duration =>
        if startDate + duration - 1 > 40 then none
        else some (mkOption cfg startDate duration)))

/-- The `(startDate, duration)` pairs the generation loop keeps, in loop
order. -/
def validPairs (cfg : Config) : List (ℕ × ℕ) :=
  (List.range' 1 34).flatMap (fun startDate =>
    cfg.selectedDurations.filterMap (fun duration =>
      if startDate + duration - 1 > 40 then none
      else some (startDate, duration)))

/-- One decimal digit of an ASCII character. -/
def digitVal (c : Char) : Option ℕ := if c.isDigit then some (c.toNat - 48) else none

/-- Accumulate a digit string into a natural number; `none` on the first
non-digit. -/
def digitsToNatAux : List Char → ℕ → Option ℕ
  | [], acc => some acc
  | c :: cs, acc =>
    match digitVal c with
    | some d => digitsToNatAux cs (acc * 10 + d)
    | none => none

/-- Value of an all-digit character list (the empty list yields `some 0`;
emptiness is handled by the caller). -/
def digitsToNat (cs : List Char) : Option ℕ := digitsToNatAux cs 0

/-- JS `Number(s)` on the decimal strings relevant here (optional sign,
digits, optional single decimal point): `some q` for a numeric string,
`none` standing for `NaN`.  `jsNumber "" = none`, but the filter tests
`=== ''` before ever calling `Number`, matching the source. -/
def jsNumber (s : String) : Option ℚ :=
  let core : List Char → Option ℚ := fun t =>
    let intPart := t.takeWhile (fun c => c ≠ '.')
    let rest := t.dropWhile (fun c => c ≠ '.')
    match rest with
    | [] =>
      if intPart.isEmpty then none
      else (digitsToNat intPart).map (fun n => (n : ℚ))
    | _ :: frac =>
      if frac.contains '.' then none
      else if intPart.isEmpty && frac.isEmpty then none
      else
        match digitsToNat intPart, digitsToNat frac with
        | some i, some f => some ((i : ℚ) + (f : ℚ) / (10 : ℚ) ^ frac.length)
        | _, _ => none
  match s.data with
  | '-' :: t => (core t).map (fun q => -q)
  | '+' :: t => core t
  | t => core t

/-- One traveler's ceiling test from `filteredOptions`:
`maxPrice === '' || convertPrice(cost) <= Number(maxPrice)`.
A non-numeric `maxPrice` makes `Number(maxPrice)` `NaN` and the JS
comparison `<= NaN` false, hence the `none => false` branch. -/
def passesCeiling (cfg : Config) (maxPrice : String) (cost : ℚ) : Bool :=
  (maxPrice == "") ||
    (match jsNumber maxPrice with
     | some limit => decide (convertPrice cfg cost ≤ limit)
     | none => false)

/-- The filter predicate of `filteredOptions`: conjunction of the three
travelers' ceiling constraints. -/
def optionFilter (cfg : Config) (o : Opt) : Bool :=
  passesCeiling cfg cfg.maxPriceHasan o.costs.hasan
    && passesCeiling cfg cfg.maxPriceHatim o.costs.hatim
    && passesCeiling cfg cfg.maxPriceHussain o.costs.hussain

/-- Source `filteredOptions`: the generated options that pass every configured
ceiling. -/
def filteredOptions (cfg : Config) : List Opt :=
  (generateDateAnalysis cfg).filter (optionFilter cfg)

/-- The comparable projection handed to `_.orderBy`: a string for
`dates`, a number for the other known keys, `undefined` otherwise
(e.g. the initial `totalCost` key, which is not a `costs` field). -/
inductive SortVal
  | num (q : ℚ)
  | str (s : String)
  | undef
deriving DecidableEq

/-- The sort-key projection of `sortedOptions`. -/
def sortKey (cfg : Config) (o : Opt) : SortVal :=
  if cfg.sortField = "dates" then SortVal.str o.dates.start
  else if cfg.sortField = "leaves" then
    SortVal.num ((o.leaves.german + o.leaves.indian) * 100 + o.leaves.german)
  else if cfg.sortField = "duration" then SortVal.num (o.duration : ℚ)
  else if cfg.sortField = "hasan" then SortVal.num (convertPrice cfg o.costs.hasan)
  else if cfg.sortField = "hatim" then SortVal.num (convertPrice cfg o.costs.hatim)
  else if cfg.sortField = "hussain" then SortVal.num (convertPrice cfg o.costs.hussain)
  else if cfg.sortField = "total" then SortVal.num (convertPrice cfg o.costs.total)
  else SortVal.undef

/-- lodash's ascending strict comparison on projected keys: numbers and
strings compare within their kind, defined values sort before
`undefined`.  A single `orderBy` call only ever compares keys of one
kind; the cross-kind cases (unreachable) are fixed arbitrarily so that
the relation is a strict linear order. -/
def svLT : SortVal → SortVal → Bool
  | SortVal.num p, SortVal.num q => decide (p < q)
  | SortVal.num _, SortVal.str _ => true
  | SortVal.num _, SortVal.undef => true
  | SortVal.str _, SortVal.num _ => false
  | SortVal.str a, SortVal.str b => jsStrLt a b
  | SortVal.str _, SortVal.undef => true
  | SortVal.undef, _ => false

/-- The stable non-strict ordering `_.orderBy` uses: for `asc`, `a`
precedes `b` unless `key b < key a`; `desc` flips the comparison. -/
def orderByLE (cfg : Config) (a b : Opt) : Bool :=
  match cfg.sortDirection with
  | SortDir.asc => !(svLT (sortKey cfg b) (sortKey cfg a))
  | SortDir.desc => !(svLT (sortKey cfg a) (sortKey cfg b))

/-- Source `sortedOptions = _.orderBy(filteredOptions, [key], [direction])`.
`_.orderBy` is a stable comparison sort; it is modelled by the stable
`List.insertionSort` over the non-strict ordering `orderByLE`. -/
def sortedOptions (cfg : Config) : List Opt :=
  (filteredOptions cfg).insertionSort (fun a b => orderByLE cfg a b = true)

/-- A traveler index, for stating per-traveler filter properties. -/
inductive Traveler
  | hasan
  | hatim
  | hussain
deriving DecidableEq

/-- Replace one traveler's ceiling string, leaving the rest of the
snapshot unchanged. -/
def setCeiling (cfg : Config) : Traveler → String → Config
  | Traveler.hasan, v => { cfg with maxPriceHasan := v }
  | Traveler.hatim, v => { cfg with maxPriceHatim := v }
  | Traveler.hussain, v => { cfg with maxPriceHussain := v }

/-- The component's initial state: sort by (the absent key) `totalCost`
ascending, no durations selected, empty ceilings, rounding on, INR, no
exchange rate loaded yet. -/
def baseConfig : Config :=
  { sortField := "totalCost",
    sortDirection := SortDir.asc,
    selectedDurations := [],
    maxPriceHasan := "",
    maxPriceHatim := "",
    maxPriceHussain := "",
    roundPrices := true,
    exchangeRate := none,
    selectedCurrency := Currency.INR }

/-- Snapshot with only duration 7 selected. -/
def cfgDur7 : Config := { baseConfig with selectedDurations := [7] }

/-- Snapshot with only duration 6 selected. -/
def cfgDur6 : Config := { baseConfig with selectedDurations := [6] }

/-- Snapshot with duration 7 selected and the table sorted by the
`dates` column ascending. -/
def cfgDatesSort : Config := { cfgDur7 with sortField := "dates" }

/-- Snapshot with duration 7 selected and a non-numeric ceiling string
for Hasan. -/
def cfgNanCeil : Config := { cfgDur7 with maxPriceHasan := "abc" }

/-- Snapshot with no durations selected but every other input changed
away from its default (ceilings, currency, rate, rounding, sort). -/
def cfgEmptyDur : Config :=
  { sortField := "dates",
    sortDirection := SortDir.desc,
    selectedDurations := [],
    maxPriceHasan := "9000",
    maxPriceHatim := "abc",
    maxPriceHussain := "1",
    roundPrices := false,
    exchangeRate := some (1/100),
    selectedCurrency := Currency.EUR }

/-! ## Lemmas about the calendar fold loops -/

theorem foldl_workStep (holidays hybridDays : List String) (l : List ℕ) :
    ∀ init : ℚ,
      l.foldl (workStep holidays hybridDays) init
        = init + (l.map (workCredit holidays hybridDays)).sum := by
  induction l with
  | nil => intro init; simp
  | cons a l ih =>
    intro init
    rw [List.foldl_cons, ih, List.map_cons, List.sum_cons]
    have h : workStep holidays hybridDays init a = init + workCredit holidays hybridDays a := by
      simp only [workStep, workCredit]
      split_ifs <;> ring
    rw [h]; ring

theorem foldl_weekendStep (l : List ℕ) :
    ∀ init : ℕ, l.foldl weekendStep init = init + (l.map weekendInd).sum := by
  induction l with
  | nil => intro init; simp
  | cons a l ih =>
    intro init
    rw [List.foldl_cons, ih, List.map_cons, List.sum_cons]
    have h : weekendStep init a = init + weekendInd a := by
      unfold weekendStep weekendInd
      split_ifs <;> omega
    rw [h]; omega

theorem getWorkingDays_eq_sum (s e : ℕ) (hols hybs : List String) :
    getWorkingDays s e hols hybs
      = ((List.range' s (e + 1 - s)).map (workCredit hols hybs)).sum := by
  unfold getWorkingDays
  rw [foldl_workStep, zero_add]

theorem getWeekendCount_eq_sum (s e : ℕ) :
    getWeekendCount s e = ((List.range' s (e + 1 - s)).map weekendInd).sum := by
  unfold getWeekendCount
  rw [foldl_weekendStep, Nat.zero_add]

theorem weekendInd_add_workCredit (k : ℕ) :
    (weekendInd k : ℚ) + workCredit [] [] k = 1 := by
  unfold weekendInd workCredit
  by_cases h0 : dayOfWeek k = 0
  · simp [h0]
  · by_cases h6 : dayOfWeek k = 6
    · simp [h0, h6]
    · simp [h0, h6]

theorem workCredit_nohybrid_int (hols : List String) (k : ℕ) :
    ∃ n : ℕ, workCredit hols [] k = (n : ℚ) := by
  unfold workCredit
  split_ifs with h1 h2 h3
  · exact ⟨0, by norm_num⟩
  · exact absurd h3 (by simp [List.contains])
  · exact ⟨1, by norm_num⟩
  · exact ⟨0, by norm_num⟩

theorem getWorkingDays_nohybrid_int (s e : ℕ) (hols : List String) :
    ∃ n : ℕ, getWorkingDays s e hols [] = (n : ℚ) := by
  rw [getWorkingDays_eq_sum]
  generalize List.range' s (e + 1 - s) = l
  induction l with
  | nil => exact ⟨0, by simp⟩
  | cons a l ih =>
    obtain ⟨m, hm⟩ := ih
    obtain ⟨p, hp⟩ := workCredit_nohybrid_int hols a
    exact ⟨p + m, by rw [List.map_cons, List.sum_cons, hm, hp]; push_cast; ring⟩

/-- C6: over any inclusive range, weekend days and (holiday-free,
hybrid-free) working days partition the days: their counts add up to the
range length. -/
theorem weekend_plus_working_eq_length (s e : ℕ) (_h : s ≤ e) :
    (getWeekendCount s e : ℚ) + getWorkingDays s e [] []
      = ((e + 1 - s : ℕ) : ℚ) := by
  rw [getWorkingDays_eq_sum, getWeekendCount_eq_sum]
  have key : ∀ l : List ℕ,
      ((l.map weekendInd).sum : ℚ) + (l.map (workCredit [] [])).sum = l.length := by
    intro l
    induction l with
    | nil => simp
    | cons a l ih =>
      simp only [List.map_cons, List.sum_cons, List.length_cons]
      push_cast
      push_cast at ih
      have := weekendInd_add_workCredit a
      linarith
  rw [key]
  simp

theorem weekend_plus_working_eq_length_witness :
    18 ≤ 24 ∧
      (getWeekendCount 18 24 : ℚ) + getWorkingDays 18 24 [] [] = ((24 + 1 - 18 : ℕ) : ℚ) :=
  ⟨by decide, weekend_plus_working_eq_length 18 24 (by decide)⟩

/-! ## Lemmas about the generation loop -/

theorem mem_generate {cfg : Config} {o : Opt} (h : o ∈ generateDateAnalysis cfg) :
    ∃ s d : ℕ, 1 ≤ s ∧ s ≤ 34 ∧ d ∈ durationPool cfg ∧ s + d - 1 ≤ 40
      ∧ o = mkOption cfg s d := by
  unfold generateDateAnalysis at h
  split at h
  · simp at h
  · simp only [List.mem_flatMap, List.mem_filterMap] at h
    obtain ⟨s, hs, d, hd, hif⟩ := h
    rw [List.mem_range'] at hs
    obtain ⟨i, hi, rfl⟩ := hs
    split at hif
    · exact absurd hif (by simp)
    · next hgt =>
      refine ⟨1 + 1 * i, d, by omega, by omega, hd, by omega, ?_⟩
      exact (Option.some.inj hif).symm

/-- C9: the German leave count of every generated Option is a whole
number — `getWorkingDays` is called for it without the hybrid-day list,
so the 0.5 hybrid credit can only affect the Indian count. -/
theorem german_leaves_whole (cfg : Config) (o : Opt)
    (ho : o ∈ generateDateAnalysis cfg) :
    ∃ n : ℕ, o.leaves.german = (n : ℚ) := by
  obtain ⟨s, d, _, _, _, _, rfl⟩ := mem_generate ho
  have hmk : (mkOption cfg s d).leaves.german
      = getWorkingDays s (s + d - 1) (getSpecialDays s (s + d - 1)).holidays.german [] := rfl
  rw [hmk]
  exact getWorkingDays_nohybrid_int _ _ _

theorem german_leaves_whole_witness :
    ∃ n : ℕ,
      ((generateDateAnalysis cfgDur7).get ⟨25, by decide⟩).leaves.german = (n : ℚ) :=
  german_leaves_whole cfgDur7 _ (List.get_mem _ _ _)

/-- C7: with an empty duration selection the generator returns no
Options, and the filtered and sorted outputs are empty as well, whatever
the remaining inputs are. -/
theorem empty_durations_empty_result (cfg : Config)
    (h : cfg.selectedDurations = []) :
    generateDateAnalysis cfg = [] ∧ filteredOptions cfg = [] ∧ sortedOptions cfg = [] := by
  have hgen : generateDateAnalysis cfg = [] := by
    unfold generateDateAnalysis
    rw [if_pos (by rw [h]; rfl)]
  have hfil : filteredOptions cfg = [] := by
    unfold filteredOptions
    rw [hgen]
    rfl
  refine ⟨hgen, hfil, ?_⟩
  unfold sortedOptions
  rw [hfil]
  rfl

theorem empty_durations_empty_result_witness :
    cfgEmptyDur.selectedDurations = [] ∧
      (generateDateAnalysis cfgEmptyDur = [] ∧ filteredOptions cfgEmptyDur = []
        ∧ sortedOptions cfgEmptyDur = []) :=
  ⟨rfl, empty_durations_empty_result cfgEmptyDur rfl⟩

/-- C10: for every enumerated pair (start day in `1..34`, positive
duration, end day at most 40) the month-split index is within `0..29`,
and in particular within the bounds of each of the twelve 30-element
month arrays consulted during Option generation. -/
theorem fare_index_in_bounds (s d : ℕ)
    (h1 : 1 ≤ s) (h2 : s ≤ 34) (h3 : 1 ≤ d) (h4 : s + d - 1 ≤ 40) :
    (monthIdx s ≤ 29 ∧ monthIdx (s + d - 1) ≤ 29)
      ∧ ∀ pd ∈ [prices.hasanOutbound, prices.hasanReturn, prices.hatimOutbound,
          prices.hatimReturn, prices.hussainOutbound, prices.hussainReturn],
          monthIdx s < (monthArr pd s).length
            ∧ monthIdx (s + d - 1) < (monthArr pd (s + d - 1)).length := by
  have hlen : ∀ pd ∈ [prices.hasanOutbound, prices.hasanReturn, prices.hatimOutbound,
      prices.hatimReturn, prices.hussainOutbound, prices.hussainReturn],
      pd.april.length = 30 ∧ pd.may.length = 30 := by decide
  have hidx : ∀ day : ℕ, 1 ≤ day → day ≤ 40 → monthIdx day ≤ 29 := by
    intro day hd1 hd40
    unfold monthIdx
    split <;> omega
  have hs : monthIdx s ≤ 29 := hidx s h1 (by omega)
  have he : monthIdx (s + d - 1) ≤ 29 := hidx (s + d - 1) (by omega) (by omega)
  refine ⟨⟨hs, he⟩, ?_⟩
  intro pd hpd
  obtain ⟨ha, hm⟩ := hlen pd hpd
  constructor
  · unfold monthArr
    split
    · rw [ha]; omega
    · rw [hm]; omega
  · unfold monthArr
    split
    · rw [ha]; omega
    · rw [hm]; omega

theorem fare_index_in_bounds_witness :
    (1 ≤ 18 ∧ 18 ≤ 34 ∧ 1 ≤ 7 ∧ 18 + 7 - 1 ≤ 40) ∧
      ((monthIdx 18 ≤ 29 ∧ monthIdx (18 + 7 - 1) ≤ 29)
        ∧ ∀ pd ∈ [prices.hasanOutbound, prices.hasanReturn, prices.hatimOutbound,
            prices.hatimReturn, prices.hussainOutbound, prices.hussainReturn],
            monthIdx 18 < (monthArr pd 18).length
              ∧ monthIdx (18 + 7 - 1) < (monthArr pd (18 + 7 - 1)).length) :=
  ⟨⟨by decide, by decide, by decide, by decide⟩,
    fare_index_in_bounds 18 7 (by decide) (by decide) (by decide) (by decide)⟩

set_option maxRecDepth 1000000 in
unseal Rat.add Rat.sub Rat.mul Rat.inv in
/-- C5: the concrete scenario.  With durations {7}, the Option at index
17 of the generation order is the one starting April 18 (ordinal 18): it
ends April 24 (ordinal 24), overlaps both German holidays, one Indian
holiday and no hybrid day, spans 2 weekend days, and its German leave
count is the plain working-day count of the range minus the 2
German-holiday weekdays, i.e. 3. -/
theorem concrete_scenario_start18 :
    ((generateDateAnalysis cfgDur7).map (fun o => (o.dates.start, o.dates.stop)))[17]?
        = some ("April 18", "April 24")
      ∧ ((generateDateAnalysis cfgDur7).map (fun o =>
            (o.holidays.german, o.holidays.indian, o.hybridDays.hatim)))[17]?
        = some (["2025-04-18", "2025-04-21"], ["2025-04-18"], [])
      ∧ ((generateDateAnalysis cfgDur7).map (fun o => o.weekends))[17]? = some 2
      ∧ ((generateDateAnalysis cfgDur7).map (fun o => o.leaves.german))[17]? = some 3
      ∧ getWorkingDays 18 24 [] [] = 5
      ∧ (3 : ℚ) = getWorkingDays 18 24 [] [] - 2 := by
  refine ⟨by decide, by decide, by decide, by decide, by decide, by decide⟩

/-- The `(if c then none else some x) = some y` unfolding used when
reasoning about the generator's `continue`. -/
theorem ite_none_some_eq_some {α : Type} {c : Prop} [Decidable c] {x y : α} :
    ((if c then none else some x) = some y) ↔ (¬c ∧ x = y) := by
  split <;> simp_all

theorem generate_eq_map_validPairs (cfg : Config)
    (hne : cfg.selectedDurations ≠ []) :
    generateDateAnalysis cfg
      = (validPairs cfg).map (fun p => mkOption cfg p.1 p.2) := by
  have hlen : ¬cfg.selectedDurations.length = 0 := by
    simpa [List.length_eq_zero] using hne
  have hpool : durationPool cfg = cfg.selectedDurations := by
    unfold durationPool
    rw [if_pos (by omega)]
  unfold generateDateAnalysis validPairs
  rw [if_neg hlen, hpool, List.map_flatMap]
  refine congrArg _ (funext fun s => ?_)
  rw [List.map_filterMap]
  refine congrFun (congrArg List.filterMap (funext fun d => ?_)) _
  split <;> rfl

theorem mem_validPairs (cfg : Config) (s d : ℕ) :
    (s, d) ∈ validPairs cfg
      ↔ 1 ≤ s ∧ s ≤ 34 ∧ d ∈ cfg.selectedDurations ∧ s + d - 1 ≤ 40 := by
  unfold validPairs
  simp only [List.mem_flatMap, List.mem_filterMap, List.mem_range',
    ite_none_some_eq_some, Prod.mk.injEq]
  constructor
  · rintro ⟨a, ⟨i, hi, rfl⟩, b, hb, hgt, rfl, rfl⟩
    exact ⟨by omega, by omega, hb, by omega⟩
  · rintro ⟨h1, h2, hd, h4⟩
    exact ⟨s, ⟨s - 1, by omega, by omega⟩, d, hd, by omega, rfl, rfl⟩

theorem mem_validPairs_inner (cfg : Config) (s : ℕ) {p : ℕ × ℕ}
    (hp : p ∈ cfg.selectedDurations.filterMap (fun duration =>
      if s + duration - 1 > 40 then none else some (s, duration))) :
    p.1 = s := by
  rw [List.mem_filterMap] at hp
  obtain ⟨d, _, hd⟩ := hp
  rw [ite_none_some_eq_some] at hd
  rw [← hd.2]

theorem validPairs_nodup (cfg : Config) (hnd : cfg.selectedDurations.Nodup) :
    (validPairs cfg).Nodup := by
  unfold validPairs
  rw [List.nodup_flatMap]
  constructor
  · intro s _
    refine List.Nodup.filterMap ?_ hnd
    intro d d' p hp hp'
    rw [Option.mem_def, ite_none_some_eq_some] at hp hp'
    have : d = p.2 := by rw [← hp.2]
    have h' : d' = p.2 := by rw [← hp'.2]
    omega
  · have hlt : (List.range' 1 34).Pairwise (· < ·) := by decide
    refine hlt.imp ?_
    intro s t hst
    intro p hp hp'
    have h1 := mem_validPairs_inner cfg s hp
    have h2 := mem_validPairs_inner cfg t hp'
    omega

theorem dateLabel_inj_34 :
    ∀ s ∈ List.range' 1 34, ∀ t ∈ List.range' 1 34,
      dateLabel s = dateLabel t → s = t := by decide

/-- C1 (amended): the generator enumerates start days `1..34` only, and
over that range the produced Options are in bijection with the valid
pairs: the output is precisely the image of the kept `(start, duration)`
pairs, the kept pairs are exactly those with `1 ≤ start ≤ 34`, duration
in the selected set and `start + duration - 1 ≤ 40`, and neither the
pairs nor the Options contain a duplicate. -/
theorem generator_bijection (cfg : Config) (hne : cfg.selectedDurations ≠ [])
    (hnd : cfg.selectedDurations.Nodup) :
    generateDateAnalysis cfg = (validPairs cfg).map (fun p => mkOption cfg p.1 p.2)
      ∧ (∀ s d : ℕ, (s, d) ∈ validPairs cfg
          ↔ 1 ≤ s ∧ s ≤ 34 ∧ d ∈ cfg.selectedDurations ∧ s + d - 1 ≤ 40)
      ∧ (validPairs cfg).Nodup
      ∧ (generateDateAnalysis cfg).Nodup := by
  refine ⟨generate_eq_map_validPairs cfg hne, mem_validPairs cfg,
    validPairs_nodup cfg hnd, ?_⟩
  rw [generate_eq_map_validPairs cfg hne]
  refine List.Nodup.map_on ?_ (validPairs_nodup cfg hnd)
  rintro ⟨s, d⟩ hx ⟨t, d'⟩ hy hmk
  obtain ⟨hs1, hs2, _, _⟩ := (mem_validPairs cfg s d).mp hx
  obtain ⟨ht1, ht2, _, _⟩ := (mem_validPairs cfg t d').mp hy
  have hdur : d = d' := congrArg Opt.duration hmk
  have hlab : dateLabel s = dateLabel t := congrArg (fun o => o.dates.start) hmk
  have hst : s = t := by
    refine dateLabel_inj_34 s ?_ t ?_ hlab
    · rw [List.mem_range']
      exact ⟨s - 1, by omega, by omega⟩
    · rw [List.mem_range']
      exact ⟨t - 1, by omega, by omega⟩
  rw [hst, hdur]

theorem generator_bijection_witness :
    (cfgDur6.selectedDurations ≠ [] ∧ cfgDur6.selectedDurations.Nodup)
      ∧ (generateDateAnalysis cfgDur6
            = (validPairs cfgDur6).map (fun p => mkOption cfgDur6 p.1 p.2)
          ∧ (∀ s d : ℕ, (s, d) ∈ validPairs cfgDur6
              ↔ 1 ≤ s ∧ s ≤ 34 ∧ d ∈ cfgDur6.selectedDurations ∧ s + d - 1 ≤ 40)
          ∧ (validPairs cfgDur6).Nodup
          ∧ (generateDateAnalysis cfgDur6).Nodup) :=
  ⟨⟨by decide, by decide⟩, generator_bijection cfgDur6 (by decide) (by decide)⟩

/-- C1 counterexample: with durations {6} the pair (35, 6) lies in the
window (ordinals 1..40) and satisfies `35 + 6 - 1 ≤ 40`, yet no produced
Option starts on ordinal 35 — the enumeration stops at start day 34. -/
theorem generator_bijection_counterexample :
    (1 ≤ 35 ∧ 35 ≤ 40 ∧ 6 ∈ cfgDur6.selectedDurations ∧ 35 + 6 - 1 ≤ 40)
      ∧ ∀ o ∈ generateDateAnalysis cfgDur6,
          ¬(o.dates.start = dateLabel 35 ∧ o.duration = 6) := by decide

/-! ## Lemmas about the price-ceiling filter -/

theorem jsNumber_empty : jsNumber "" = none := rfl

theorem beq_empty_false_of_jsNumber_some {m : String} {q : ℚ}
    (h : jsNumber m = some q) : (m == "") = false := by
  cases hm : (m == "") with
  | true =>
    have hme : m = "" := by simpa using hm
    rw [hme, jsNumber_empty] at h
    exact Option.noConfusion h
  | false => rfl

theorem passesCeiling_nan_false (cfg : Config) (m : String) (c : ℚ)
    (hne : m ≠ "") (hnan : jsNumber m = none) : passesCeiling cfg m c = false := by
  unfold passesCeiling
  rw [hnan]
  simp [hne]

/-- C2 (amended): a non-empty ceiling string that does not parse as a
number makes that traveler's constraint `convertPrice(cost) <= NaN`,
which is false for every Option, so the filtered result is empty — not
"unconstrained" as the spec claims. -/
theorem nonnumeric_ceiling_empties_result (cfg : Config)
    (h : (cfg.maxPriceHasan ≠ "" ∧ jsNumber cfg.maxPriceHasan = none)
        ∨ (cfg.maxPriceHatim ≠ "" ∧ jsNumber cfg.maxPriceHatim = none)
        ∨ (cfg.maxPriceHussain ≠ "" ∧ jsNumber cfg.maxPriceHussain = none)) :
    filteredOptions cfg = [] := by
  unfold filteredOptions
  rw [List.filter_eq_nil_iff]
  intro o _
  unfold optionFilter
  rcases h with ⟨hne, hnan⟩ | ⟨hne, hnan⟩ | ⟨hne, hnan⟩ <;>
    rw [passesCeiling_nan_false cfg _ _ hne hnan] <;> simp

theorem nonnumeric_ceiling_empties_result_witness :
    (cfgNanCeil.maxPriceHasan ≠ "" ∧ jsNumber cfgNanCeil.maxPriceHasan = none)
      ∧ filteredOptions cfgNanCeil = [] :=
  ⟨⟨by decide, rfl⟩,
    nonnumeric_ceiling_empties_result cfgNanCeil (Or.inl ⟨by decide, rfl⟩)⟩

/-- C2 counterexample: `cfgNanCeil` differs from `cfgDur7` only in
Hasan's ceiling string "abc", which does not parse as a number; the
claim says the filter output should be unchanged, but it is not — the
non-numeric ceiling removes every Option. -/
theorem nonnumeric_ceiling_counterexample :
    cfgNanCeil = { cfgDur7 with maxPriceHasan := "abc" }
      ∧ jsNumber "abc" = none
      ∧ filteredOptions cfgNanCeil ≠ filteredOptions cfgDur7 := by
  exact ⟨rfl, rfl, by decide⟩

theorem passesCeiling_setCeiling (cfg : Config) (t : Traveler) (v m : String) (c : ℚ) :
    passesCeiling (setCeiling cfg t v) m c = passesCeiling cfg m c := by
  cases t <;> rfl

theorem passesCeiling_mono (cfg : Config) {hi lo : String} {qhi qlo : ℚ}
    (hhi : jsNumber hi = some qhi) (hlo : jsNumber lo = some qlo) (hle : qlo ≤ qhi)
    (c : ℚ) (h : passesCeiling cfg lo c = true) : passesCeiling cfg hi c = true := by
  unfold passesCeiling at h ⊢
  rw [hlo, beq_empty_false_of_jsNumber_some hlo] at h
  rw [hhi, beq_empty_false_of_jsNumber_some hhi]
  simp only [Bool.false_or, decide_eq_true_eq] at h ⊢
  exact le_trans h hle

/-- C8: replacing one traveler's numeric ceiling by a smaller numeric
ceiling (all other inputs unchanged) can only shrink the filtered set:
the result under the lower ceiling is a subset of the result under the
higher one, over any list of Options. -/
theorem filter_mono (opts : List Opt) (cfg : Config) (t : Traveler)
    (hi lo : String) (qhi qlo : ℚ)
    (hhi : jsNumber hi = some qhi) (hlo : jsNumber lo = some qlo) (hle : qlo ≤ qhi) :
    opts.filter (optionFilter (setCeiling cfg t lo))
      ⊆ opts.filter (optionFilter (setCeiling cfg t hi)) := by
  intro o ho
  rw [List.mem_filter] at ho ⊢
  refine ⟨ho.1, ?_⟩
  have hp := ho.2
  have mono := passesCeiling_mono cfg hhi hlo hle
  cases t
  case hasan =>
    have e1 : optionFilter (setCeiling cfg Traveler.hasan lo) o
        = (passesCeiling cfg lo o.costs.hasan
            && passesCeiling cfg cfg.maxPriceHatim o.costs.hatim
            && passesCeiling cfg cfg.maxPriceHussain o.costs.hussain) := rfl
    have e2 : optionFilter (setCeiling cfg Traveler.hasan hi) o
        = (passesCeiling cfg hi o.costs.hasan
            && passesCeiling cfg cfg.maxPriceHatim o.costs.hatim
            && passesCeiling cfg cfg.maxPriceHussain o.costs.hussain) := rfl
    rw [e1] at hp
    rw [e2]
    simp only [Bool.and_eq_true] at hp ⊢
    exact ⟨⟨mono o.costs.hasan hp.1.1, hp.1.2⟩, hp.2⟩
  case hatim =>
    have e1 : optionFilter (setCeiling cfg Traveler.hatim lo) o
        = (passesCeiling cfg cfg.maxPriceHasan o.costs.hasan
            && passesCeiling cfg lo o.costs.hatim
            && passesCeiling cfg cfg.maxPriceHussain o.costs.hussain) := rfl
    have e2 : optionFilter (setCeiling cfg Traveler.hatim hi) o
        = (passesCeiling cfg cfg.maxPriceHasan o.costs.hasan
            && passesCeiling cfg hi o.costs.hatim
            && passesCeiling cfg cfg.maxPriceHussain o.costs.hussain) := rfl
    rw [e1] at hp
    rw [e2]
    simp only [Bool.and_eq_true] at hp ⊢
    exact ⟨⟨hp.1.1, mono o.costs.hatim hp.1.2⟩, hp.2⟩
  case hussain =>
    have e1 : optionFilter (setCeiling cfg Traveler.hussain lo) o
        = (passesCeiling cfg cfg.maxPriceHasan o.costs.hasan
            && passesCeiling cfg cfg.maxPriceHatim o.costs.hatim
            && passesCeiling cfg lo o.costs.hussain) := rfl
    have e2 : optionFilter (setCeiling cfg Traveler.hussain hi) o
        = (passesCeiling cfg cfg.maxPriceHasan o.costs.hasan
            && passesCeiling cfg cfg.maxPriceHatim o.costs.hatim
            && passesCeiling cfg hi o.costs.hussain) := rfl
    rw [e1] at hp
    rw [e2]
    simp only [Bool.and_eq_true] at hp ⊢
    exact ⟨hp.1, mono o.costs.hussain hp.2⟩

theorem filter_mono_witness :
    (jsNumber "20000" = some 20000 ∧ jsNumber "15000" = some 15000
        ∧ (15000 : ℚ) ≤ 20000)
      ∧ (generateDateAnalysis cfgDur7).filter
            (optionFilter (setCeiling cfgDur7 Traveler.hasan "15000"))
          ⊆ (generateDateAnalysis cfgDur7).filter
            (optionFilter (setCeiling cfgDur7 Traveler.hasan "20000")) :=
  ⟨⟨by decide, by decide, by norm_num⟩,
    filter_mono _ cfgDur7 Traveler.hasan "20000" "15000" 20000 15000
      (by decide) (by decide) (by norm_num)⟩

/-! ## The lexicographic string order and the sort comparator -/

theorem charsLt_asymm : ∀ a b, charsLt a b = true → charsLt b a = false
  | [], [] => by simp [charsLt]
  | [], _ :: _ => fun _ => rfl
  | _ :: _, [] => by simp [charsLt]
  | x :: xs, y :: ys => by
    simp only [charsLt]
    split_ifs with h1 h2 <;> intro h <;>
      first
        | rfl
        | omega
        | simp at h
        | exact charsLt_asymm xs ys h

theorem charsLt_trans : ∀ a b c, charsLt a b = true → charsLt b c = true → charsLt a c = true
  | [], [], _ => by simp [charsLt]
  | [], _ :: _, [] => fun _ h => by simp [charsLt] at h
  | [], _ :: _, _ :: _ => fun _ _ => rfl
  | _ :: _, [], _ => fun h => by simp [charsLt] at h
  | _ :: _, _ :: _, [] => fun _ h => by simp [charsLt] at h
  | x :: xs, y :: ys, z :: zs => by
    simp only [charsLt]
    split_ifs <;> intro ha hb <;>
      first
        | rfl
        | omega
        | exact ha.elim
        | exact hb.elim
        | exact Bool.noConfusion ha
        | exact Bool.noConfusion hb
        | exact charsLt_trans xs ys zs ha hb

theorem charsLt_connex : ∀ a b, charsLt a b = false → charsLt b a = false → a = b
  | [], [] => fun _ _ => rfl
  | [], _ :: _ => fun h _ => by simp [charsLt] at h
  | _ :: _, [] => fun _ h => by simp [charsLt] at h
  | x :: xs, y :: ys => by
    simp only [charsLt]
    split_ifs with h1 h2 <;> intro ha hb <;>
      first
        | exact ha.elim
        | exact hb.elim
        | (have hxy : x = y := by
             have hn : x.toNat = y.toNat := by omega
             have hc := congrArg Char.ofNat hn
             rwa [Char.ofNat_toNat, Char.ofNat_toNat] at hc
           rw [hxy, charsLt_connex xs ys ha hb])

theorem jsStrLt_asymm {a b : String} (h : jsStrLt a b = true) : jsStrLt b a = false :=
  charsLt_asymm _ _ h

theorem jsStrLt_trans {a b c : String} (h1 : jsStrLt a b = true)
    (h2 : jsStrLt b c = true) : jsStrLt a c = true :=
  charsLt_trans _ _ _ h1 h2

theorem jsStrLt_connex {a b : String} (ha : jsStrLt a b = false)
    (hb : jsStrLt b a = false) : a = b := by
  cases a with
  | mk da =>
    cases b with
    | mk db => exact congrArg String.mk (charsLt_connex da db ha hb)

theorem svLT_asymm : ∀ a b : SortVal, svLT a b = true → svLT b a = false
  | SortVal.num p, SortVal.num q => by
    simp only [svLT, decide_eq_true_eq, decide_eq_false_iff_not]
    exact lt_asymm
  | SortVal.num _, SortVal.str _ => fun _ => rfl
  | SortVal.num _, SortVal.undef => fun _ => rfl
  | SortVal.str _, SortVal.num _ => fun h => by simp [svLT] at h
  | SortVal.str a, SortVal.str b => fun h => jsStrLt_asymm h
  | SortVal.str _, SortVal.undef => fun _ => rfl
  | SortVal.undef, _ => fun h => by simp [svLT] at h

theorem svLT_trans : ∀ a b c : SortVal, svLT a b = true → svLT b c = true → svLT a c = true := by
  intro a b c h1 h2
  cases a <;> cases b <;> cases c <;>
    first
      | rfl
      | exact Bool.noConfusion h1
      | exact Bool.noConfusion h2
      | (simp only [svLT, decide_eq_true_eq] at h1 h2 ⊢
         exact lt_trans h1 h2)
      | exact jsStrLt_trans h1 h2

theorem svLT_connex : ∀ a b : SortVal, svLT a b = false → svLT b a = false → a = b := by
  intro a b h1 h2
  cases a <;> cases b <;>
    first
      | rfl
      | exact Bool.noConfusion h1
      | exact Bool.noConfusion h2
      | (simp only [svLT, decide_eq_false_iff_not] at h1 h2
         exact congrArg SortVal.num (le_antisymm (not_lt.mp h2) (not_lt.mp h1)))
      | exact congrArg SortVal.str (jsStrLt_connex h1 h2)

theorem orderByLE_asc (cfg : Config) (h : cfg.sortDirection = SortDir.asc) (a b : Opt) :
    orderByLE cfg a b = !(svLT (sortKey cfg b) (sortKey cfg a)) := by
  unfold orderByLE
  rw [h]

theorem orderByLE_desc (cfg : Config) (h : cfg.sortDirection = SortDir.desc) (a b : Opt) :
    orderByLE cfg a b = !(svLT (sortKey cfg a) (sortKey cfg b)) := by
  unfold orderByLE
  rw [h]

theorem orderByLE_total (cfg : Config) (a b : Opt) :
    orderByLE cfg a b = true ∨ orderByLE cfg b a = true := by
  cases hdir : cfg.sortDirection
  case asc =>
    rw [orderByLE_asc cfg hdir a b, orderByLE_asc cfg hdir b a]
    by_cases h : svLT (sortKey cfg b) (sortKey cfg a) = true
    · rw [svLT_asymm _ _ h]
      simp
    · rw [Bool.not_eq_true] at h
      rw [h]
      simp
  case desc =>
    rw [orderByLE_desc cfg hdir a b, orderByLE_desc cfg hdir b a]
    by_cases h : svLT (sortKey cfg a) (sortKey cfg b) = true
    · rw [svLT_asymm _ _ h]
      simp
    · rw [Bool.not_eq_true] at h
      rw [h]
      simp

theorem orderByLE_trans (cfg : Config) (a b c : Opt)
    (hab : orderByLE cfg a b = true) (hbc : orderByLE cfg b c = true) :
    orderByLE cfg a c = true := by
  cases hdir : cfg.sortDirection
  case asc =>
    rw [orderByLE_asc cfg hdir] at hab hbc ⊢
    rw [Bool.not_eq_true'] at hab hbc ⊢
    cases hca : svLT (sortKey cfg c) (sortKey cfg a) with
    | false => rfl
    | true =>
      exfalso
      cases hbc' : svLT (sortKey cfg b) (sortKey cfg c) with
      | true =>
        have := svLT_trans _ _ _ hbc' hca
        rw [this] at hab
        exact Bool.noConfusion hab
      | false =>
        have heq := svLT_connex _ _ hbc hbc'
        rw [heq] at hca
        rw [hca] at hab
        exact Bool.noConfusion hab
  case desc =>
    rw [orderByLE_desc cfg hdir] at hab hbc ⊢
    rw [Bool.not_eq_true'] at hab hbc ⊢
    cases hca : svLT (sortKey cfg a) (sortKey cfg c) with
    | false => rfl
    | true =>
      exfalso
      cases hcb : svLT (sortKey cfg c) (sortKey cfg b) with
      | true =>
        have := svLT_trans _ _ _ hca hcb
        rw [this] at hab
        exact Bool.noConfusion hab
      | false =>
        have heq := svLT_connex _ _ hbc hcb
        rw [← heq] at hca
        rw [hca] at hab
        exact Bool.noConfusion hab

set_option maxRecDepth 1000000 in
/-- C3: with sort key `dates` ascending, the output is a permutation of
the filtered Options ordered by JS-lexicographic comparison of the
human-readable start-date label; concretely (durations {7}) the Option
starting April 10 is listed before the one starting April 2, so the
label order deliberately disagrees with chronological (ordinal) order. -/
theorem dates_sort_is_label_lex (cfg : Config)
    (hf : cfg.sortField = "dates") (hd : cfg.sortDirection = SortDir.asc) :
    ((sortedOptions cfg).Perm (filteredOptions cfg)
      ∧ (sortedOptions cfg).Pairwise
          (fun a b => jsStrLe a.dates.start b.dates.start = true))
    ∧ (((sortedOptions cfgDatesSort).map (fun o => o.dates.start))[1]? = some "April 10"
        ∧ ((sortedOptions cfgDatesSort).map (fun o => o.dates.start))[11]? = some "April 2") := by
  refine ⟨⟨List.perm_insertionSort _ _, ?_⟩, by decide, by decide⟩
  haveI : IsTotal Opt (fun a b => orderByLE cfg a b = true) :=
    ⟨fun a b => orderByLE_total cfg a b⟩
  haveI : IsTrans Opt (fun a b => orderByLE cfg a b = true) :=
    ⟨fun a b c => orderByLE_trans cfg a b c⟩
  have hs := List.sorted_insertionSort
    (fun a b : Opt => orderByLE cfg a b = true) (filteredOptions cfg)
  refine List.Pairwise.imp ?_ hs
  intro a b hab
  rw [orderByLE_asc cfg hd] at hab
  have hk : ∀ o : Opt, sortKey cfg o = SortVal.str o.dates.start := by
    intro o
    simp [sortKey, hf]
  rw [hk a, hk b] at hab
  exact hab

theorem dates_sort_is_label_lex_witness :
    (cfgDatesSort.sortField = "dates" ∧ cfgDatesSort.sortDirection = SortDir.asc)
      ∧ (((sortedOptions cfgDatesSort).Perm (filteredOptions cfgDatesSort)
          ∧ (sortedOptions cfgDatesSort).Pairwise
              (fun a b => jsStrLe a.dates.start b.dates.start = true))
        ∧ (((sortedOptions cfgDatesSort).map (fun o => o.dates.start))[1]?
              = some "April 10"
            ∧ ((sortedOptions cfgDatesSort).map (fun o => o.dates.start))[11]?
              = some "April 2")) :=
  ⟨⟨rfl, rfl⟩, dates_sort_is_label_lex cfgDatesSort rfl rfl⟩

/-- C4: every generated Option's per-traveler cost is that traveler's
outbound fare on the start day plus return fare on the end day — with
the rounding flag on, each leg is rounded to the nearest 500
independently before summing — and the total is the sum of the three
travelers' costs.  The last conjunct records that round-then-sum really
differs from sum-then-round. -/
theorem option_costs_round_then_sum (cfg : Config) (o : Opt)
    (ho : o ∈ generateDateAnalysis cfg) :
    (∃ s e : ℕ,
      o.dates.start = dateLabel s ∧ o.dates.stop = dateLabel e
        ∧ e = s + o.duration - 1
        ∧ o.costs.hasan = legPrice cfg.roundPrices prices.hasanOutbound s
            + legPrice cfg.roundPrices prices.hasanReturn e
        ∧ o.costs.hatim = legPrice cfg.roundPrices prices.hatimOutbound s
            + legPrice cfg.roundPrices prices.hatimReturn e
        ∧ o.costs.hussain = legPrice cfg.roundPrices prices.hussainOutbound s
            + legPrice cfg.roundPrices prices.hussainReturn e
        ∧ (cfg.roundPrices = true →
            o.costs.hasan = roundToNearest500 (fareAt prices.hasanOutbound s)
                + roundToNearest500 (fareAt prices.hasanReturn e)
              ∧ o.costs.hatim = roundToNearest500 (fareAt prices.hatimOutbound s)
                + roundToNearest500 (fareAt prices.hatimReturn e)
              ∧ o.costs.hussain = roundToNearest500 (fareAt prices.hussainOutbound s)
                + roundToNearest500 (fareAt prices.hussainReturn e))
        ∧ o.costs.total = o.costs.hasan + o.costs.hatim + o.costs.hussain)
    ∧ roundToNearest500 4740 + roundToNearest500 4740
        ≠ roundToNearest500 (4740 + 4740) := by
  constructor
  · obtain ⟨s, d, _, _, _, _, rfl⟩ := mem_generate ho
    refine ⟨s, s + d - 1, rfl, rfl, rfl, rfl, rfl, rfl, ?_, ?_⟩
    · intro hr
      refine ⟨?_, ?_, ?_⟩
      · show legPrice cfg.roundPrices prices.hasanOutbound s
            + legPrice cfg.roundPrices prices.hasanReturn (s + d - 1) = _
        rw [hr]
        rfl
      · show legPrice cfg.roundPrices prices.hatimOutbound s
            + legPrice cfg.roundPrices prices.hatimReturn (s + d - 1) = _
        rw [hr]
        rfl
      · show legPrice cfg.roundPrices prices.hussainOutbound s
            + legPrice cfg.roundPrices prices.hussainReturn (s + d - 1) = _
        rw [hr]
        rfl
    · show legPrice cfg.roundPrices prices.hasanOutbound s
          + legPrice cfg.roundPrices prices.hasanReturn (s + d - 1)
          + legPrice cfg.roundPrices prices.hatimOutbound s
          + legPrice cfg.roundPrices prices.hatimReturn (s + d - 1)
          + legPrice cfg.roundPrices prices.hussainOutbound s
          + legPrice cfg.roundPrices prices.hussainReturn (s + d - 1)
        = (legPrice cfg.roundPrices prices.hasanOutbound s
            + legPrice cfg.roundPrices prices.hasanReturn (s + d - 1))
          + (legPrice cfg.roundPrices prices.hatimOutbound s
            + legPrice cfg.roundPrices prices.hatimReturn (s + d - 1))
          + (legPrice cfg.roundPrices prices.hussainOutbound s
            + legPrice cfg.roundPrices prices.hussainReturn (s + d - 1))
      ring
  · unfold roundToNearest500 jsRound
    norm_num

theorem option_costs_round_then_sum_witness :
    (∃ s e : ℕ,
      ((generateDateAnalysis cfgDur7).get ⟨0, by decide⟩).dates.start = dateLabel s
        ∧ ((generateDateAnalysis cfgDur7).get ⟨0, by decide⟩).dates.stop = dateLabel e
        ∧ e = s + ((generateDateAnalysis cfgDur7).get ⟨0, by decide⟩).duration - 1
        ∧ ((generateDateAnalysis cfgDur7).get ⟨0, by decide⟩).costs.hasan
            = legPrice cfgDur7.roundPrices prices.hasanOutbound s
              + legPrice cfgDur7.roundPrices prices.hasanReturn e
        ∧ ((generateDateAnalysis cfgDur7).get ⟨0, by decide⟩).costs.hatim
            = legPrice cfgDur7.roundPrices prices.hatimOutbound s
              + legPrice cfgDur7.roundPrices prices.hatimReturn e
        ∧ ((generateDateAnalysis cfgDur7).get ⟨0, by decide⟩).costs.hussain
            = legPrice cfgDur7.roundPrices prices.hussainOutbound s
              + legPrice cfgDur7.roundPrices prices.hussainReturn e
        ∧ (cfgDur7.roundPrices = true →
            ((generateDateAnalysis cfgDur7).get ⟨0, by decide⟩).costs.hasan
                = roundToNearest500 (fareAt prices.hasanOutbound s)
                  + roundToNearest500 (fareAt prices.hasanReturn e)
              ∧ ((generateDateAnalysis cfgDur7).get ⟨0, by decide⟩).costs.hatim
                = roundToNearest500 (fareAt prices.hatimOutbound s)
                  + roundToNearest500 (fareAt prices.hatimReturn e)
              ∧ ((generateDateAnalysis cfgDur7).get ⟨0, by decide⟩).costs.hussain
                = roundToNearest500 (fareAt prices.hussainOutbound s)
                  + roundToNearest500 (fareAt prices.hussainReturn e))
        ∧ ((generateDateAnalysis cfgDur7).get ⟨0, by decide⟩).costs.total
            = ((generateDateAnalysis cfgDur7).get ⟨0, by decide⟩).costs.hasan
              + ((generateDateAnalysis cfgDur7).get ⟨0, by decide⟩).costs.hatim
              + ((generateDateAnalysis cfgDur7).get ⟨0, by decide⟩).costs.hussain)
    ∧ roundToNearest500 4740 + roundToNearest500 4740
        ≠ roundToNearest500 (4740 + 4740) :=
  option_costs_round_then_sum cfgDur7 _ (List.get_mem _ _ _)

end TurkeyTrip
